import Mathlib

/-!
Verification of the PDF batch annotator (netlify function repository).

A shallow embedding of the repository's core logic:

* `src/utils/page-calculator.ts` — `getPagesPerRespondentBlock` and
  `calculateAnnotationPages` (pure arithmetic on JS numbers, embedded on `Int`;
  `Array.from {length := L}` yields the empty array for non-positive `L`,
  embedded via `Int.toNat`).
* `src/process-pdf.ts` — `distributeRespondents` (the Distributor), the
  request-body validation (embedded over a JS-value model `Json`, so that JS
  truthiness and `typeof` checks are represented faithfully), and the live
  orchestration tail of the handler (download/annotate loop, ZIP size check,
  upload) with the external collaborators (download, annotate, zip, upload)
  as function parameters.

JS `%` on these inputs agrees with `Int.emod` for the `% 2 ≠ 0` parity test
used by the source, and `Math.ceil(a / b)` for naturals with `b ≥ 1` is
`(a + b - 1) / b`; the `b = 0` case is never consulted because the enclosing
`map` is over the empty list, exactly as in the source.
-/

/-! ## A model of JS JSON values, for the handler's validation code -/

/-- A parsed JSON value as JavaScript sees it.  Numbers are modelled as
integers (the claims under study only involve integral inputs). -/
inductive Json where
  | null : Json
  | bool : Bool → Json
  | num : Int → Json
  | str : String → Json
  | arr : List Json → Json
  | obj : List (String × Json) → Json

/-- JS property access `v[name]`: `none` models `undefined` (missing field or
access on a primitive). -/
def jsGetField : Json → String → Option Json
  | .obj fields, name => (fields.find? (fun f => f.1 = name)).map (·.2)
  | _, _ => none

/-- JS truthiness of a possibly-`undefined` value (`none` = `undefined`). -/
def jsTruthy : Option Json → Bool
  | none => false
  | some .null => false
  | some (.bool b) => b
  | some (.num n) => n ≠ 0
  | some (.str s) => s ≠ ""
  | some (.arr _) => true
  | some (.obj _) => true

/-- `typeof v === "string"` -/
def jsIsString : Json → Bool
  | .str _ => true
  | _ => false

/-- `typeof v === "number"` -/
def jsIsNumber : Option Json → Bool
  | some (.num _) => true
  | _ => false

/-- `typeof v === "boolean"` -/
def jsIsBoolean : Option Json → Bool
  | some (.bool _) => true
  | _ => false

/-- `Array.isArray(v)` -/
def jsIsArray : Option Json → Bool
  | some (.arr _) => true
  | _ => false

/-! ## `src/utils/page-calculator.ts` -/

/-- `getPagesPerRespondentBlock` (page-calculator.ts, lines 8–16):
`total = 2 + pagesPerQuestionnaire`, plus one more page if `total` is odd. -/
def getPagesPerRespondentBlock (pagesPerQuestionnaire : Int) : Int :=
  let total := 2 + pagesPerQuestionnaire
  if total % 2 ≠ 0 then total + 1 else total

/-- `calculateAnnotationPages` (page-calculator.ts, lines 24–45):
`Array.from {length := pagesPerQuestionnaire} (fun i => firstAnnotationPage + i)`;
a non-positive length yields the empty array (`Int.toNat`). -/
def calculateAnnotationPages (respondentIndexInPdf : Int)
    (pagesPerQuestionnaire : Int) : List Int :=
  let pagesPerBlock := getPagesPerRespondentBlock pagesPerQuestionnaire
  let startPageOfBlock := respondentIndexInPdf * pagesPerBlock
  let firstAnnotationPage := startPageOfBlock + 2
  (List.range pagesPerQuestionnaire.toNat).map
    (fun i : Nat => firstAnnotationPage + (i : Int))

/-! ## `src/process-pdf.ts` — the Distributor -/

/-- `{ code: string }` respondent records from the request metadata. -/
structure Respondent where
  code : String
deriving DecidableEq, Repr

/-- One entry of the distribution plan returned by `distributeRespondents`
(process-pdf.ts, lines 48–54). -/
structure PlanEntry where
  pdfUrl : String
  pdfIndex : Nat
  respondentsAssigned : Nat
  respondentCodes : List String
  respondentDetails : List (String × List Int)
deriving DecidableEq, Repr

/-- `distributeRespondents` (process-pdf.ts, lines 29–56).
`Math.ceil(total / n)` for `n ≥ 1` is `(total + n - 1) / n`; for `n = 0` the
value is never consulted since the `map` is over the empty `pdfUrls` list.
`slice(start, start + per)` is `(drop start).take per`. -/
def distributeRespondents (respondenten : List Respondent)
    (pdfUrls : List String) (pagesCount : Int) : List PlanEntry :=
  let totalRespondents := respondenten.length
  let respondentsPerPdf := (totalRespondents + pdfUrls.length - 1) / pdfUrls.length
  pdfUrls.mapIdx (fun pdfIndex url =>
    let startIndex := pdfIndex * respondentsPerPdf
    let respondentSlice := (respondenten.drop startIndex).take respondentsPerPdf
    let respondentCodes := respondentSlice.map (·.code)
    let respondentDetails := respondentCodes.mapIdx
      (fun respondentIndexInPdf code =>
        (code, calculateAnnotationPages respondentIndexInPdf pagesCount))
    { pdfUrl := url
      pdfIndex := pdfIndex
      respondentsAssigned := respondentCodes.length
      respondentCodes := respondentCodes
      respondentDetails := respondentDetails })

/-! ## `src/process-pdf.ts` — request-body validation (lines 93–125) -/

/-- The three validation checks of the handler, in source order, over a parsed
JSON body.  Returns `some (status, message)` for the first failing check and
`none` when validation passes.  The `pdfUrls` check (lines 93–103) is
`!pdfUrls || !Array.isArray(pdfUrls) || !pdfUrls.every(url => typeof url === "string")`;
note that an empty array is truthy, is an array, and vacuously satisfies
`every`, so it passes. -/
def validateBody (body : Json) : Option (Nat × String) :=
  let pdfUrls := jsGetField body "pdfUrls"
  let annotate := jsGetField body "annotate"
  let metadata := jsGetField body "metadata"
  if !jsTruthy pdfUrls || !jsIsArray pdfUrls ||
      !(match pdfUrls with
        | some (.arr xs) => xs.all jsIsString
        | _ => false) then
    some (400, "Invalid pdfUrls: must be an array of strings.")
  else if !jsIsBoolean annotate then
    some (400, "Invalid annotate: must be a boolean.")
  else if !jsTruthy metadata ||
      !(match metadata.bind (jsGetField · "logoUrl") with
        | some v => jsIsString v
        | none => false) ||
      !jsIsNumber (metadata.bind (jsGetField · "pagesCount")) ||
      !jsIsArray (metadata.bind (jsGetField · "respondenten")) ||
      !(match metadata.bind (jsGetField · "respondenten") with
        | some (.arr rs) => rs.all (fun r =>
            jsTruthy (some r) &&
            (match jsGetField r "code" with
             | some v => jsIsString v
             | none => false))
        | _ => false) then
    some (400, "Invalid metadata object or its properties.")
  else
    none

/-- A request body whose `pdfUrls` is the empty array and whose other fields
are well-formed (boolean `annotate`, string `logoUrl`, numeric `pagesCount`,
an array of `{code: string}` respondents). -/
def bodyEmptyPdfUrls : Json :=
  .obj [("pdfUrls", .arr []),
        ("annotate", .bool true),
        ("metadata", .obj
          [("logoUrl", .str "https://example.com/logo.png"),
           ("pagesCount", .num 4),
           ("respondenten", .arr [.obj [("code", .str "A")]])])]

/-- A request body that is well-formed except that `metadata.pagesCount` is
the negative number `-3`. -/
def bodyNegativePagesCount : Json :=
  .obj [("pdfUrls", .arr [.str "https://example.com/a.pdf"]),
        ("annotate", .bool true),
        ("metadata", .obj
          [("logoUrl", .str "https://example.com/logo.png"),
           ("pagesCount", .num (-3)),
           ("respondenten", .arr
             [.obj [("code", .str "A")], .obj [("code", .str "B")]])])]

/-! ## `src/process-pdf.ts` — the live orchestration (lines 146–243)

The external collaborators (§6 of the spec) are thin I/O glue; they enter the
embedding as function parameters.  PDF payloads are byte sequences
(`List Nat`). -/

/-- One iteration of the per-PDF loop (process-pdf.ts, lines 150–181):
download, then annotate only when the slice is non-empty, else pass the
downloaded bytes through.  A failure of either collaborator aborts
(`Except.error`), as the rethrow at lines 177–180 does. -/
def processPlanItem (download : String → Except String (List Nat))
    (annotate : List Nat → List String → String → Int → Except String (List Nat))
    (logoUrl : String) (pagesCount : Int) (item : PlanEntry) :
    Except String (List Nat) := do
  let pdfBuffer ← download item.pdfUrl
  if item.respondentCodes.length > 0 then
    annotate pdfBuffer item.respondentCodes logoUrl pagesCount
  else
    pure pdfBuffer

/-- `const TWO_GB = 2 * 1024 * 1024 * 1024` (process-pdf.ts, line 194). -/
def TWO_GB : Nat := 2 * 1024 * 1024 * 1024

/-- The success payload assembled at process-pdf.ts, lines 228–236 (the
URL/expiry strings come from the upload collaborator; `zipSizeMB`, a rendered
float, is represented by the byte length it is derived from). -/
structure SuccessResponse where
  fileIoUrl : String
  expires : String
  respondentCount : Nat
  filesInZip : Nat
  respondentsPerFile : List Nat
  zipSize : Nat
deriving DecidableEq, Repr

/-- Outcome of the live path after validation: the four exits of
process-pdf.ts lines 146–252. -/
inductive HandlerResult where
  /-- a download/annotate failure rethrown from the loop → 500 (lines 177–180, 244–252) -/
  | processingFailed : String → HandlerResult
  /-- ZIP over 2 GiB → 413, upload never attempted (lines 195–203) -/
  | sizeLimit : Nat → HandlerResult
  /-- upload failed → 500 with the upload error (lines 213–224) -/
  | uploadFailed : String → HandlerResult
  /-- 200 with the final response (lines 227–243) -/
  | success : SuccessResponse → HandlerResult
deriving DecidableEq, Repr

/-- HTTP status code of each `HandlerResult` exit, as returned by the source. -/
def HandlerResult.statusCode : HandlerResult → Nat
  | .processingFailed _ => 500
  | .sizeLimit _ => 413
  | .uploadFailed _ => 500
  | .success _ => 200

/-- The live path of the handler after validation (process-pdf.ts,
lines 128–243, debug branch excluded): compute the plan, run the sequential
download/annotate loop in plan order, zip, enforce the 2 GiB ceiling, then
upload.  `respondentsPerFile` collects `respondentCodes.length` per plan item
(line 161). -/
def runLive (respondenten : List Respondent) (pdfUrls : List String)
    (logoUrl : String) (pagesCount : Int)
    (download : String → Except String (List Nat))
    (annotate : List Nat → List String → String → Int → Except String (List Nat))
    (zip : List (List Nat) → List Nat)
    (upload : List Nat → Except String (String × String)) : HandlerResult :=
  let distributionPlan := distributeRespondents respondenten pdfUrls pagesCount
  match distributionPlan.mapM (processPlanItem download annotate logoUrl pagesCount) with
  | .error e => .processingFailed e
  | .ok annotatedPdfBuffers =>
    let respondentsPerFile := distributionPlan.map (·.respondentCodes.length)
    let zipBuffer := zip annotatedPdfBuffers
    if zipBuffer.length > TWO_GB then
      .sizeLimit zipBuffer.length
    else
      match upload zipBuffer with
      | .error e => .uploadFailed e
      | .ok (url, expires) =>
        .success {
          fileIoUrl := url
          expires := expires
          respondentCount := respondenten.length
          filesInZip := annotatedPdfBuffers.length
          respondentsPerFile := respondentsPerFile
          zipSize := zipBuffer.length }

/-! ## The annotation collaborator's stamped pages -/

/-- The page plan `annotatePdf` actually stamps (the `pdf-annotator` module,
staged as the second document inside `src/src/utils/image-downloader.ts`;
its annotation loop, and identically the simpler third staged document):
`respondentCodes.forEach((code, index) => { const pagesToAnnotate =
calculateAnnotationPages(index, pagesPerQuestionnaire); pagesToAnnotate.forEach(
pageIndex => { if (pageIndex < actualPages) { ...draw... } else { warn } }) })`
— each respondent's pages are recomputed with the respondent's position in
the codes array, and only in-bounds pages (`pageIndex < actualPages`, with
`actualPages = pdfDoc.getPageCount()`) are stamped; out-of-bounds pages are
skipped with a warning.  The preceding expected-page-count check only warns
and does not alter the stamped set. -/
def annotatePdfStampedPages (respondentCodes : List String)
    (pagesCount : Int) (actualPages : Int) : List (String × List Int) :=
  respondentCodes.mapIdx (fun index code =>
    (code, (calculateAnnotationPages index pagesCount).filter
      (fun pageIndex => pageIndex < actualPages)))

/-! ## Concrete collaborator instances, for witnesses -/

/-- A download collaborator that always returns the byte sequence `[7]`. -/
def constDownload7 : String → Except String (List Nat) := fun _ => .ok [7]

/-- An annotation collaborator that always fails — used to demonstrate that
it is never invoked on empty slices. -/
def failingAnnotate : List Nat → List String → String → Int →
    Except String (List Nat) := fun _ _ _ _ => .error "boom"

/-- An annotation collaborator that always succeeds, prepending one byte. -/
def okAnnotate : List Nat → List String → String → Int →
    Except String (List Nat) := fun buffer _ _ _ => .ok (0 :: buffer)

/-- A packaging collaborator producing an archive just over the 2 GiB
ceiling. -/
def hugeZip : List (List Nat) → List Nat := fun _ => List.replicate (TWO_GB + 1) 0

/-- An upload collaborator that always succeeds. -/
def okUpload : List Nat → Except String (String × String) :=
  fun _ => .ok ("https://file.io/x", "14 days")

/-- An upload collaborator that always fails. -/
def errUpload : List Nat → Except String (String × String) :=
  fun _ => .error "upload refused"

/-! ## Claim C3 — block size parity and formula -/

/-- C3: for every integer `p ≥ 0`, `getPagesPerRespondentBlock p` is even, is
at least `2`, and equals `p + 2` when `p` is even and `p + 3` when `p` is
odd. -/
theorem getPagesPerRespondentBlock_even_formula (p : Int) (hp : 0 ≤ p) :
    Even (getPagesPerRespondentBlock p) ∧
    2 ≤ getPagesPerRespondentBlock p ∧
    (p % 2 = 0 → getPagesPerRespondentBlock p = p + 2) ∧
    (p % 2 ≠ 0 → getPagesPerRespondentBlock p = p + 3) := by
  simp only [getPagesPerRespondentBlock, Int.even_iff]
  split <;> refine ⟨by omega, by omega, by omega, by omega⟩

/-- Witness for C3 at `p = 3` (odd): block size `6 = 3 + 3`. -/
theorem getPagesPerRespondentBlock_even_formula_witness :
    (0 : Int) ≤ 3 ∧ Even (getPagesPerRespondentBlock 3) ∧
    2 ≤ getPagesPerRespondentBlock 3 ∧
    getPagesPerRespondentBlock 3 = 3 + 3 :=
  ⟨by decide, (getPagesPerRespondentBlock_even_formula 3 (by decide)).1,
    (getPagesPerRespondentBlock_even_formula 3 (by decide)).2.1,
    (getPagesPerRespondentBlock_even_formula 3 (by decide)).2.2.2 (by decide)⟩

/-! ## Claim C2 — the Planner's page list -/

/-- Unfolding lemma for `calculateAnnotationPages`. -/
theorem calculateAnnotationPages_eq (i p : Int) :
    calculateAnnotationPages i p =
      (List.range p.toNat).map
        (fun k : Nat => i * getPagesPerRespondentBlock p + 2 + (k : Int)) := by
  unfold calculateAnnotationPages
  rfl

/-- A list `[start, start+1, ..., start+n-1]` steps by exactly one. -/
theorem chain'_add_range (start : Int) (n : Nat) :
    List.Chain' (fun a b => b = a + 1)
      ((List.range n).map (fun k : Nat => start + (k : Int))) := by
  induction n generalizing start with
  | zero => simp
  | succ m ih =>
    rw [List.range_succ_eq_map, List.map_cons, List.map_map]
    have hmap : List.map ((fun k : Nat => start + (k : Int)) ∘ Nat.succ) (List.range m)
        = List.map (fun k : Nat => (start + 1) + (k : Int)) (List.range m) := by
      refine List.map_congr_left (fun a _ => ?_)
      simp only [Function.comp_apply]
      push_cast
      ring
    rw [hmap]
    refine List.chain'_cons'.mpr ⟨?_, ih (start + 1)⟩
    intro y hy
    rcases m with _ | m'
    · simp at hy
    · rw [List.range_succ_eq_map, List.map_cons, List.head?_cons] at hy
      simp only [Option.mem_def, Option.some.injEq] at hy
      subst hy
      push_cast
      ring

/-- C2: for every `i ≥ 0` and `p ≥ 0`, `calculateAnnotationPages i p` has
exactly `p` entries, each entry `k` equals
`i * getPagesPerRespondentBlock p + 2 + k` (so the list is strictly
increasing by 1 and starts at `i * blockSize(p) + 2`), and `p = 0` yields the
empty list without error. -/
theorem calculateAnnotationPages_arith (i p : Int) (hi : 0 ≤ i) (hp : 0 ≤ p) :
    (calculateAnnotationPages i p).length = p.toNat ∧
    (∀ k : Nat, k < p.toNat →
      (calculateAnnotationPages i p)[k]? =
        some (i * getPagesPerRespondentBlock p + 2 + (k : Int))) ∧
    List.Chain' (fun a b => b = a + 1) (calculateAnnotationPages i p) ∧
    calculateAnnotationPages i 0 = [] := by
  refine ⟨?_, ?_, ?_, ?_⟩
  · rw [calculateAnnotationPages_eq, List.length_map, List.length_range]
  · intro k hk
    rw [calculateAnnotationPages_eq, List.getElem?_map, List.getElem?_range hk,
      Option.map_some']
  · rw [calculateAnnotationPages_eq]
    exact chain'_add_range _ _
  · rw [calculateAnnotationPages_eq]
    simp

/-- Witness for C2 at `i = 1`, `p = 4`: four pages, the page at offset `2`
being `1 * 6 + 2 + 2 = 10`. -/
theorem calculateAnnotationPages_arith_witness :
    (0 : Int) ≤ 1 ∧ (0 : Int) ≤ 4 ∧
    (calculateAnnotationPages 1 4).length = (4 : Int).toNat ∧
    (calculateAnnotationPages 1 4)[2]? =
      some (1 * getPagesPerRespondentBlock 4 + 2 + ((2 : Nat) : Int)) ∧
    calculateAnnotationPages 1 0 = [] :=
  ⟨by decide, by decide,
    (calculateAnnotationPages_arith 1 4 (by decide) (by decide)).1,
    (calculateAnnotationPages_arith 1 4 (by decide) (by decide)).2.1 2 (by decide),
    (calculateAnnotationPages_arith 1 4 (by decide) (by decide)).2.2.2⟩

/-! ## Distributor structure lemmas -/

/-- The ceiling slice width of the Distributor, `Math.ceil(total / n)`. -/
theorem respondentsPerPdf_spec (total n : Nat) (hn : 1 ≤ n) :
    total ≤ n * ((total + n - 1) / n) ∧
    (1 ≤ total → 1 ≤ (total + n - 1) / n) := by
  have hmod := Nat.div_add_mod (total + n - 1) n
  have hlt : (total + n - 1) % n < n := Nat.mod_lt _ (by omega)
  constructor
  · generalize n * ((total + n - 1) / n) = m at hmod ⊢
    omega
  · intro ht
    rw [Nat.one_le_div_iff (by omega)]
    omega

/-- The plan has one entry per PDF URL. -/
theorem distributeRespondents_length (R : List Respondent) (urls : List String)
    (p : Int) : (distributeRespondents R urls p).length = urls.length := by
  simp [distributeRespondents]

/-- Entry `i` of the plan, in full (translation of the object literal built at
process-pdf.ts lines 48–54). -/
theorem distributeRespondents_get (R : List Respondent) (urls : List String)
    (p : Int) (i : Nat) (h : i < urls.length) :
    (distributeRespondents R urls p).get
        ⟨i, by rw [distributeRespondents_length]; exact h⟩ =
      (let per := (R.length + urls.length - 1) / urls.length
       let codes := ((R.drop (i * per)).take per).map Respondent.code
       { pdfUrl := urls.get ⟨i, h⟩
         pdfIndex := i
         respondentsAssigned := codes.length
         respondentCodes := codes
         respondentDetails := codes.mapIdx
           (fun j c => (c, calculateAnnotationPages (j : Int) p)) }) := by
  simp only [distributeRespondents]
  rw [List.get_mapIdx _ _ i h]

/-- The codes columns of the plan, as a function of the slice index. -/
theorem distributeRespondents_map_codes (R : List Respondent)
    (urls : List String) (p : Int) :
    (distributeRespondents R urls p).map (·.respondentCodes) =
      (List.range urls.length).map (fun i =>
        (let per := (R.length + urls.length - 1) / urls.length
         ((R.drop (i * per)).take per).map Respondent.code)) := by
  apply List.ext_get
  · simp [distributeRespondents_length]
  · intro i h1 h2
    have hu : i < urls.length := by
      simpa [distributeRespondents_length] using h1
    rw [List.get_map, List.get_map, List.get_range]
    have := distributeRespondents_get R urls p i hu
    simp only at this ⊢
    rw [this]

/-- Concatenating consecutive `take per`-slices of `l` recovers
`l.take (n * per)`. -/
theorem flatten_take_drop_slices {α : Type} (per : Nat) :
    ∀ (n : Nat) (l : List α),
      ((List.range n).map (fun i => (l.drop (i * per)).take per)).flatten =
        l.take (n * per) := by
  intro n
  induction n with
  | zero => intro l; simp
  | succ m ih =>
    intro l
    rw [List.range_succ_eq_map, List.map_cons, List.map_map, List.flatten_cons]
    have hmap : List.map ((fun i => (l.drop (i * per)).take per) ∘ Nat.succ)
          (List.range m)
        = List.map (fun i => ((l.drop per).drop (i * per)).take per)
          (List.range m) := by
      refine List.map_congr_left (fun a _ => ?_)
      simp only [Function.comp_apply, List.drop_drop, Nat.succ_mul]
      congr 1
      ring
    rw [hmap, ih (l.drop per)]
    rw [show (m + 1) * per = per + m * per by ring, List.take_add]
    simp [Nat.zero_mul, List.drop_zero]

/-- Each slice starting at or beyond the end of the respondent list is
empty. -/
theorem slice_nil_of_ge {R : List Respondent} {n i : Nat} (hn : 1 ≤ n)
    (hi : R.length ≤ i) :
    ((R.drop (i * ((R.length + n - 1) / n))).take
      ((R.length + n - 1) / n)).map Respondent.code = [] := by
  rcases Nat.eq_zero_or_pos R.length with h0 | hpos
  · have : R = [] := List.length_eq_zero.mp h0
    simp [this]
  · have hper : 1 ≤ (R.length + n - 1) / n := (respondentsPerPdf_spec R.length n hn).2 hpos
    have hdrop : R.length ≤ i * ((R.length + n - 1) / n) := by
      calc R.length ≤ i := hi
        _ = i * 1 := (Nat.mul_one i).symm
        _ ≤ i * ((R.length + n - 1) / n) := Nat.mul_le_mul_left i hper
    rw [List.drop_eq_nil_of_le hdrop]
    simp

/-! ## Claim C1 — the plan partitions the respondent list -/

/-- C1: for every respondent list, non-empty `pdfUrls` and any `pagesCount`,
`distributeRespondents` returns one entry per PDF with `pdfIndex` equal to its
position, concatenating the `respondentCodes` over all entries in order
reproduces the codes of the respondent list exactly, and entries whose slice
starts beyond the respondent list still appear, with empty `respondentCodes`
and empty `respondentDetails`. -/
theorem distributeRespondents_partition (R : List Respondent)
    (urls : List String) (p : Int) (h : urls ≠ []) :
    (distributeRespondents R urls p).length = urls.length ∧
    ((distributeRespondents R urls p).map (·.respondentCodes)).flatten =
      R.map Respondent.code ∧
    (∀ i (hi : i < urls.length),
      ((distributeRespondents R urls p).get
        ⟨i, by rw [distributeRespondents_length]; exact hi⟩).pdfIndex = i) ∧
    (∀ i (hi : i < urls.length), R.length ≤ i →
      ((distributeRespondents R urls p).get
        ⟨i, by rw [distributeRespondents_length]; exact hi⟩).respondentCodes = [] ∧
      ((distributeRespondents R urls p).get
        ⟨i, by rw [distributeRespondents_length]; exact hi⟩).respondentDetails = []) := by
  have hn : 1 ≤ urls.length := List.length_pos.mpr h
  refine ⟨distributeRespondents_length R urls p, ?_, ?_, ?_⟩
  · rw [distributeRespondents_map_codes]
    simp only []
    have hmm : (List.range urls.length).map (fun i =>
          ((R.drop (i * ((R.length + urls.length - 1) / urls.length))).take
            ((R.length + urls.length - 1) / urls.length)).map Respondent.code)
        = ((List.range urls.length).map (fun i =>
            (R.drop (i * ((R.length + urls.length - 1) / urls.length))).take
              ((R.length + urls.length - 1) / urls.length))).map
            (List.map Respondent.code) := by
      rw [List.map_map]
      rfl
    rw [hmm, ← List.map_flatten, flatten_take_drop_slices]
    rw [List.take_of_length_le (respondentsPerPdf_spec R.length urls.length hn).1]
  · intro i hi
    rw [distributeRespondents_get R urls p i hi]
  · intro i hi hRi
    rw [distributeRespondents_get R urls p i hi]
    simp only []
    rw [slice_nil_of_ge hn hRi]
    exact ⟨rfl, rfl⟩

/-- Witness for C1: two respondents over three PDFs; the concatenated codes
are exactly the two codes and the third entry is present but empty. -/
theorem distributeRespondents_partition_witness :
    (distributeRespondents [⟨"A"⟩, ⟨"B"⟩] ["u", "v", "w"] 1).length = 3 ∧
    ((distributeRespondents [⟨"A"⟩, ⟨"B"⟩] ["u", "v", "w"] 1).map
      (·.respondentCodes)).flatten = ["A", "B"] ∧
    ((distributeRespondents [⟨"A"⟩, ⟨"B"⟩] ["u", "v", "w"] 1).get
      ⟨2, by decide⟩).respondentCodes = [] := by
  have h := distributeRespondents_partition [⟨"A"⟩, ⟨"B"⟩] ["u", "v", "w"] 1
    (by decide)
  refine ⟨h.1.trans rfl, h.2.1.trans (by decide), ?_⟩
  exact (h.2.2.2 2 (by decide) (by decide)).1

/-- Every plan entry's `respondentDetails` pairs each code with the Planner's
pages at the code's position inside the entry's own slice. -/
theorem plan_entry_details (R : List Respondent) (urls : List String) (p : Int)
    (e : PlanEntry) (he : e ∈ distributeRespondents R urls p) :
    e.respondentDetails = e.respondentCodes.mapIdx
      (fun j c => (c, calculateAnnotationPages (j : Int) p)) := by
  obtain ⟨⟨i, hi⟩, hget⟩ := List.mem_iff_get.mp he
  have hlen : i < urls.length := by
    rw [distributeRespondents_length] at hi; exact hi
  subst hget
  rw [distributeRespondents_get R urls p i hlen]

/-! ## Claim C4 — the Planner receives slice-local indices -/

/-- C4: in every entry of every distribution plan, `respondentDetails` pairs
the code at slice position `j` with `calculateAnnotationPages j pagesCount`
for the local index `j`, never the global index; concretely, with 5
respondents over 2 PDFs, PDF 0 holds respondents 0–2 and PDF 1 holds
respondents 3–4 whose annotation pages are those of local indices 0 and 1 —
which differ from the pages global indices 3 and 4 would give. -/
theorem distributeRespondents_local_index :
    (∀ (R : List Respondent) (urls : List String) (p : Int) (e : PlanEntry),
      e ∈ distributeRespondents R urls p →
      e.respondentDetails = e.respondentCodes.mapIdx
        (fun j c => (c, calculateAnnotationPages (j : Int) p))) ∧
    ((distributeRespondents [⟨"r1"⟩, ⟨"r2"⟩, ⟨"r3"⟩, ⟨"r4"⟩, ⟨"r5"⟩]
        ["u0", "u1"] 4).get ⟨0, by decide⟩).respondentCodes =
      ["r1", "r2", "r3"] ∧
    ((distributeRespondents [⟨"r1"⟩, ⟨"r2"⟩, ⟨"r3"⟩, ⟨"r4"⟩, ⟨"r5"⟩]
        ["u0", "u1"] 4).get ⟨1, by decide⟩).respondentCodes = ["r4", "r5"] ∧
    ((distributeRespondents [⟨"r1"⟩, ⟨"r2"⟩, ⟨"r3"⟩, ⟨"r4"⟩, ⟨"r5"⟩]
        ["u0", "u1"] 4).get ⟨1, by decide⟩).respondentDetails =
      [("r4", calculateAnnotationPages 0 4), ("r5", calculateAnnotationPages 1 4)] ∧
    calculateAnnotationPages 0 4 ≠ calculateAnnotationPages 3 4 ∧
    calculateAnnotationPages 1 4 ≠ calculateAnnotationPages 4 4 :=
  ⟨plan_entry_details, by decide, by decide, by decide, by decide, by decide⟩

/-- Witness for C4's universally quantified part, at a one-respondent,
one-PDF plan. -/
theorem distributeRespondents_local_index_witness :
    ((distributeRespondents [⟨"X"⟩] ["w"] 2).get ⟨0, by decide⟩).respondentDetails =
      ((distributeRespondents [⟨"X"⟩] ["w"] 2).get
        ⟨0, by decide⟩).respondentCodes.mapIdx
        (fun j c => (c, calculateAnnotationPages (j : Int) 2)) :=
  distributeRespondents_local_index.1 [⟨"X"⟩] ["w"] 2 _
    (List.get_mem _ 0 (by decide))

/-! ## Claim C6 — the live annotation pass versus the precomputed plan -/

/-- Mapping a function over `mapIdx` output fuses into one `mapIdx`. -/
theorem map_mapIdx {α β γ : Type} (l : List α) (f : Nat → α → β)
    (g : β → γ) : (l.mapIdx f).map g = l.mapIdx (fun i a => g (f i a)) := by
  rw [List.mapIdx_eq_ofFn, List.mapIdx_eq_ofFn, List.map_ofFn]
  rfl

/-- C6 (amended: the live path recomputes each respondent's pages with the
same planning function `calculateAnnotationPages` at the same position in the
codes array, but stamps only the in-bounds pages): for every plan entry, the
pages `annotatePdf` stamps are exactly the entry's precomputed
`respondentDetails` — what debug mode returns — with each page list
restricted to `pageIndex < actualPages`; in particular, whenever every
precomputed page index is within the document, the stamped pages equal the
precomputed `respondentDetails` outright. -/
theorem annotatePdf_stamps_planned (R : List Respondent) (urls : List String)
    (p actualPages : Int) (e : PlanEntry)
    (he : e ∈ distributeRespondents R urls p) :
    annotatePdfStampedPages e.respondentCodes p actualPages =
      e.respondentDetails.map
        (fun d => (d.1, d.2.filter (fun pageIndex => pageIndex < actualPages))) ∧
    ((∀ d ∈ e.respondentDetails, ∀ pg ∈ d.2, pg < actualPages) →
      annotatePdfStampedPages e.respondentCodes p actualPages =
        e.respondentDetails) := by
  have hdet := plan_entry_details R urls p e he
  have hmain : annotatePdfStampedPages e.respondentCodes p actualPages =
      e.respondentDetails.map
        (fun d => (d.1, d.2.filter (fun pageIndex => pageIndex < actualPages))) := by
    rw [hdet, map_mapIdx]
    rfl
  refine ⟨hmain, fun hbound => ?_⟩
  rw [hmain]
  have hid : ∀ d ∈ e.respondentDetails,
      (d.1, d.2.filter (fun pageIndex => pageIndex < actualPages)) = id d := by
    intro d hd
    have : d.2.filter (fun pageIndex => pageIndex < actualPages) = d.2 := by
      rw [List.filter_eq_self]
      intro pg hpg
      simpa using hbound d hd pg hpg
    rw [this]
    rfl
  rw [List.map_congr_left hid, List.map_id]

/-- Witness for C6's amended statement: one respondent, `pagesCount = 4`,
document with the expected 6 pages — the stamped pages equal the precomputed
details. -/
theorem annotatePdf_stamps_planned_witness :
    annotatePdfStampedPages
      ((distributeRespondents [⟨"A"⟩] ["u"] 4).get
        ⟨0, by decide⟩).respondentCodes 4 6 =
      ((distributeRespondents [⟨"A"⟩] ["u"] 4).get
        ⟨0, by decide⟩).respondentDetails :=
  (annotatePdf_stamps_planned [⟨"A"⟩] ["u"] 4 6 _
    (List.get_mem _ 0 (by decide))).2 (by decide)

/-- C6 counterexample to the claim as stated: for the plan of one respondent
with `pagesCount = 4` the Distributor precomputes pages `[2, 3, 4, 5]`, but on
a document with only 3 pages the live path stamps just `[2]` (the
`pageIndex < actualPages` bound skips the rest), so the stamped indices are
not equal to the precomputed `annotationPages`. -/
theorem annotatePdf_stamps_counterexample :
    ((distributeRespondents [⟨"A"⟩] ["u"] 4).get
      ⟨0, by decide⟩).respondentDetails = [("A", [2, 3, 4, 5])] ∧
    annotatePdfStampedPages
      ((distributeRespondents [⟨"A"⟩] ["u"] 4).get
        ⟨0, by decide⟩).respondentCodes 4 3 = [("A", [2])] ∧
    annotatePdfStampedPages
      ((distributeRespondents [⟨"A"⟩] ["u"] 4).get
        ⟨0, by decide⟩).respondentCodes 4 3 ≠
      ((distributeRespondents [⟨"A"⟩] ["u"] 4).get
        ⟨0, by decide⟩).respondentDetails :=
  ⟨by decide, by decide, by decide⟩

/-! ## Sequential loop lemmas -/

/-- If the sequential per-PDF loop (`mapM` in the `Except` monad) succeeds, it
produced one output per input, and each output comes from its own input. -/
theorem mapM_except_ok {α β : Type} (f : α → Except String β) :
    ∀ (l : List α) (ys : List β), l.mapM f = .ok ys →
      ys.length = l.length ∧
      ∀ i (h : i < l.length) (h' : i < ys.length),
        f (l.get ⟨i, h⟩) = .ok (ys.get ⟨i, h'⟩) := by
  intro l
  induction l with
  | nil =>
    intro ys h
    rw [List.mapM_nil] at h
    cases h
    exact ⟨rfl, fun i hlt => absurd hlt (Nat.not_lt_zero i)⟩
  | cons a l ih =>
    intro ys h
    rw [List.mapM_cons] at h
    cases hfa : f a with
    | error e =>
      rw [hfa] at h
      exact Except.noConfusion
        (show (Except.error e : Except String (List β)) = .ok ys from h)
    | ok b =>
      rw [hfa] at h
      cases hml : l.mapM f with
      | error e =>
        rw [hml] at h
        exact Except.noConfusion
          (show (Except.error e : Except String (List β)) = .ok ys from h)
      | ok bs =>
        rw [hml] at h
        have h' : Except.ok (b :: bs) = (Except.ok ys : Except String (List β)) := h
        cases h'
        obtain ⟨hlen, hget⟩ := ih bs hml
        refine ⟨by simp [hlen], ?_⟩
        intro i hi hi'
        cases i with
        | zero => simpa using hfa
        | succ j =>
          simp only [List.get_cons_succ]
          exact hget j (by simpa using hi) (by simpa using hi')

/-! ## Claim C7 — empty slices pass through unannotated -/

/-- C7: whenever the loop over the plan succeeds, a plan entry with empty
`respondentCodes` contributes exactly the downloaded bytes to the output
collection: its loop iteration equals the bare download (the annotation
collaborator is not consulted), and the entry's output buffer is the
downloaded byte sequence, byte for byte. -/
theorem orchestrator_passthrough_unannotated
    (download : String → Except String (List Nat))
    (annotate : List Nat → List String → String → Int → Except String (List Nat))
    (logoUrl : String) (p : Int) (plan : List PlanEntry)
    (buffers : List (List Nat))
    (hok : plan.mapM (processPlanItem download annotate logoUrl p) = .ok buffers)
    (i : Nat) (hi : i < plan.length)
    (hempty : (plan.get ⟨i, hi⟩).respondentCodes = []) :
    processPlanItem download annotate logoUrl p (plan.get ⟨i, hi⟩) =
      download ((plan.get ⟨i, hi⟩).pdfUrl) ∧
    buffers[i]? = (download ((plan.get ⟨i, hi⟩).pdfUrl)).toOption := by
  have hpass : processPlanItem download annotate logoUrl p (plan.get ⟨i, hi⟩) =
      download ((plan.get ⟨i, hi⟩).pdfUrl) := by
    unfold processPlanItem
    rw [hempty]
    simp
  obtain ⟨hlen, hget⟩ := mapM_except_ok _ plan buffers hok
  have hi' : i < buffers.length := by rw [hlen]; exact hi
  have hdl := hget i hi hi'
  rw [hpass] at hdl
  refine ⟨hpass, ?_⟩
  rw [hdl, List.getElem?_eq_getElem hi']
  rfl

/-- Witness for C7: a plan with one PDF and no respondents; the annotation
collaborator always fails, yet the loop succeeds and passes the downloaded
bytes `[7]` through. -/
theorem orchestrator_passthrough_unannotated_witness :
    processPlanItem constDownload7 failingAnnotate "" 4
        ((distributeRespondents [] ["u"] 4).get ⟨0, by decide⟩) =
      constDownload7 (((distributeRespondents [] ["u"] 4).get
        ⟨0, by decide⟩).pdfUrl) ∧
    ([[7]] : List (List Nat))[0]? =
      (constDownload7 (((distributeRespondents [] ["u"] 4).get
        ⟨0, by decide⟩).pdfUrl)).toOption :=
  orchestrator_passthrough_unannotated constDownload7 failingAnnotate "" 4
    (distributeRespondents [] ["u"] 4) [[7]] (by rfl) 0 (by decide) (by rfl)

/-! ## Claim C8 — the 2 GiB ceiling is a distinct failure -/

/-- C8: when the loop succeeded and the packaged archive exceeds
`TWO_GB = 2 * 1024^3` bytes, the handler exits with the dedicated size-limit
failure carrying the archive size — HTTP status 413, not the generic 500 —
and the result does not depend on the upload collaborator (no upload is
attempted). -/
theorem runLive_size_limit (R : List Respondent) (urls : List String)
    (logoUrl : String) (p : Int)
    (download : String → Except String (List Nat))
    (annotate : List Nat → List String → String → Int → Except String (List Nat))
    (zip : List (List Nat) → List Nat)
    (upload upload2 : List Nat → Except String (String × String))
    (buffers : List (List Nat))
    (hok : (distributeRespondents R urls p).mapM
      (processPlanItem download annotate logoUrl p) = .ok buffers)
    (hbig : (zip buffers).length > TWO_GB) :
    runLive R urls logoUrl p download annotate zip upload =
      .sizeLimit (zip buffers).length ∧
    (runLive R urls logoUrl p download annotate zip upload).statusCode = 413 ∧
    (runLive R urls logoUrl p download annotate zip upload).statusCode ≠ 500 ∧
    runLive R urls logoUrl p download annotate zip upload =
      runLive R urls logoUrl p download annotate zip upload2 := by
  have h1 : runLive R urls logoUrl p download annotate zip upload =
      .sizeLimit (zip buffers).length := by
    simp only [runLive, hok, hbig, if_true]
  have h2 : runLive R urls logoUrl p download annotate zip upload2 =
      .sizeLimit (zip buffers).length := by
    simp only [runLive, hok, hbig, if_true]
  refine ⟨h1, ?_, ?_, h1.trans h2.symm⟩
  · rw [h1]; rfl
  · rw [h1]; simp [HandlerResult.statusCode]

/-- Witness for C8: an over-limit archive from `hugeZip` triggers the 413
exit whether the upload collaborator would have succeeded or failed. -/
theorem runLive_size_limit_witness :
    runLive [] ["u"] "" 4 constDownload7 failingAnnotate hugeZip okUpload =
      .sizeLimit (hugeZip [[7]]).length ∧
    (runLive [] ["u"] "" 4 constDownload7 failingAnnotate hugeZip
      okUpload).statusCode = 413 ∧
    (runLive [] ["u"] "" 4 constDownload7 failingAnnotate hugeZip
      okUpload).statusCode ≠ 500 ∧
    runLive [] ["u"] "" 4 constDownload7 failingAnnotate hugeZip okUpload =
      runLive [] ["u"] "" 4 constDownload7 failingAnnotate hugeZip errUpload :=
  runLive_size_limit [] ["u"] "" 4 constDownload7 failingAnnotate hugeZip
    okUpload errUpload [[7]] (by rfl)
    (by simp [hugeZip])

/-! ## Claim C5 — empty `pdfUrls` is not rejected (code bug) -/

/-- C5 (evaluating the code at the failing input): a POST body whose
`pdfUrls` is the empty array — all other fields well-formed — passes the
handler's validation (no 400-class failure naming `pdfUrls` is produced;
`![]` is false in JS, `Array.isArray([])` holds and `[].every(...)` is
vacuously true), and the handler then computes a distribution plan with a
zero PDF count, which is the empty plan. -/
theorem validateBody_accepts_empty_pdfUrls :
    validateBody bodyEmptyPdfUrls = none ∧
    distributeRespondents [⟨"A"⟩] [] 4 = [] :=
  ⟨rfl, rfl⟩

/-! ## Claim C9 — totality on non-positive questionnaire lengths -/

/-- C9: `calculateAnnotationPages` is total: for every `i` and every
`p ≤ 0` it returns the empty list without error (`Array.from` with a
non-positive length yields `[]`); the handler's validation accepts any
number for `metadata.pagesCount` — the body with `pagesCount = -3` passes —
so a negative count reaches the Planner and silently yields empty
annotation-page plans for every respondent. -/
theorem calculateAnnotationPages_total_nonpositive (i p : Int) (hp : p ≤ 0) :
    calculateAnnotationPages i p = [] ∧
    validateBody bodyNegativePagesCount = none ∧
    (distributeRespondents [⟨"A"⟩, ⟨"B"⟩] ["https://example.com/a.pdf"]
      (-3)).map (·.respondentDetails) = [[("A", []), ("B", [])]] := by
  refine ⟨?_, rfl, rfl⟩
  rw [calculateAnnotationPages_eq, Int.toNat_of_nonpos hp]
  rfl

/-- Witness for C9 at `i = 5`, `p = -3`. -/
theorem calculateAnnotationPages_total_nonpositive_witness :
    (-3 : Int) ≤ 0 ∧ calculateAnnotationPages 5 (-3) = [] :=
  ⟨by decide, (calculateAnnotationPages_total_nonpositive 5 (-3) (by decide)).1⟩

/-! ## Claim C10 — consistency of the success response -/

/-- The per-entry slice widths of the plan sum to the respondent count, for a
non-empty URL list. -/
theorem plan_codes_length_sum (R : List Respondent) (urls : List String)
    (p : Int) (h : urls ≠ []) :
    ((distributeRespondents R urls p).map (·.respondentCodes.length)).sum =
      R.length := by
  have hflat := (distributeRespondents_partition R urls p h).2.1
  have hmm : (distributeRespondents R urls p).map (·.respondentCodes.length)
      = ((distributeRespondents R urls p).map (·.respondentCodes)).map
          List.length := by
    rw [List.map_map]
    rfl
  rw [hmm, ← List.length_flatten, hflat, List.length_map]

/-- C10 (amended: stated for a non-empty `pdfUrls` list; with the empty list —
which validation accepts — a successful response can report a positive
`respondentCount` while `respondentsPerFile` is empty and sums to 0, see the
counterexample): every successful live-mode response is consistent with the
plan — `respondentsPerFile` lists, in `pdfIndex` order, exactly the length of
each entry's respondent slice, one entry per `pdfUrl`; its sum equals
`respondentCount`, which is the number of respondents; and `filesInZip`
equals the number of `pdfUrls`. -/
theorem runLive_response_consistency (R : List Respondent) (urls : List String)
    (logoUrl : String) (p : Int)
    (download : String → Except String (List Nat))
    (annotate : List Nat → List String → String → Int → Except String (List Nat))
    (zip : List (List Nat) → List Nat)
    (upload : List Nat → Except String (String × String))
    (hurls : urls ≠ []) (resp : SuccessResponse)
    (hs : runLive R urls logoUrl p download annotate zip upload =
      .success resp) :
    resp.respondentsPerFile =
      (distributeRespondents R urls p).map (·.respondentCodes.length) ∧
    resp.respondentsPerFile.length = urls.length ∧
    resp.respondentsPerFile.sum = resp.respondentCount ∧
    resp.respondentCount = R.length ∧
    resp.filesInZip = urls.length := by
  cases hok : (distributeRespondents R urls p).mapM
      (processPlanItem download annotate logoUrl p) with
  | error e =>
    simp only [runLive, hok] at hs
    exact HandlerResult.noConfusion hs
  | ok buffers =>
    simp only [runLive, hok] at hs
    by_cases hbig : (zip buffers).length > TWO_GB
    · rw [if_pos hbig] at hs
      exact HandlerResult.noConfusion hs
    · rw [if_neg hbig] at hs
      cases hup : upload (zip buffers) with
      | error e =>
        rw [hup] at hs
        exact HandlerResult.noConfusion hs
      | ok pr =>
        obtain ⟨url, expires⟩ := pr
        rw [hup] at hs
        injection hs with hX
        subst hX
        refine ⟨rfl, ?_, ?_, rfl, ?_⟩
        · rw [List.length_map, distributeRespondents_length]
        · exact plan_codes_length_sum R urls p hurls
        · rw [(mapM_except_ok _ _ _ hok).1, distributeRespondents_length]

/-- Witness for C10's amended statement: one respondent, one PDF, all
collaborators succeeding. -/
theorem runLive_response_consistency_witness :
    ({ fileIoUrl := "https://file.io/x", expires := "14 days",
       respondentCount := 1, filesInZip := 1, respondentsPerFile := [1],
       zipSize := 0 } : SuccessResponse).respondentsPerFile =
      (distributeRespondents [⟨"A"⟩] ["u"] 4).map (·.respondentCodes.length) ∧
    ({ fileIoUrl := "https://file.io/x", expires := "14 days",
       respondentCount := 1, filesInZip := 1, respondentsPerFile := [1],
       zipSize := 0 } : SuccessResponse).respondentsPerFile.length = 1 ∧
    ({ fileIoUrl := "https://file.io/x", expires := "14 days",
       respondentCount := 1, filesInZip := 1, respondentsPerFile := [1],
       zipSize := 0 } : SuccessResponse).respondentsPerFile.sum =
      ({ fileIoUrl := "https://file.io/x", expires := "14 days",
         respondentCount := 1, filesInZip := 1, respondentsPerFile := [1],
         zipSize := 0 } : SuccessResponse).respondentCount ∧
    ({ fileIoUrl := "https://file.io/x", expires := "14 days",
       respondentCount := 1, filesInZip := 1, respondentsPerFile := [1],
       zipSize := 0 } : SuccessResponse).respondentCount =
      ([⟨"A"⟩] : List Respondent).length ∧
    ({ fileIoUrl := "https://file.io/x", expires := "14 days",
       respondentCount := 1, filesInZip := 1, respondentsPerFile := [1],
       zipSize := 0 } : SuccessResponse).filesInZip = 1 := by
  have h := runLive_response_consistency [⟨"A"⟩] ["u"] "" 4 constDownload7
    okAnnotate (fun _ => []) okUpload (by decide) _ (by rfl)
  exact h

/-- C10 counterexample: with the empty `pdfUrls` list — which the handler's
validation accepts — the live path can produce a successful response whose
`respondentCount` is 1 while `respondentsPerFile` is empty, so the sum of
`respondentsPerFile` does not equal `respondentCount`. -/
theorem runLive_consistency_counterexample :
    runLive [⟨"A"⟩] ([] : List String) "" 4 constDownload7 okAnnotate
        (fun _ => []) okUpload =
      .success { fileIoUrl := "https://file.io/x", expires := "14 days",
                 respondentCount := 1, filesInZip := 0,
                 respondentsPerFile := [], zipSize := 0 } ∧
    ([] : List Nat).sum ≠ ([⟨"A"⟩] : List Respondent).length :=
  ⟨rfl, by decide⟩
